import Mathlib

/-!
Verification of the movie-recommendation backend (`backend/app.py`,
`backend/models.py`) against its natural-language specification.

The database state is embedded shallowly: each table is a list of rows,
SQL queries become list operations (`filter`, `find?`, `insertionSort`), and
the Flask request handlers become pure functions from a `DB` state and the
parsed request data to a response plus a new `DB` state.  Rating values
are modelled as rationals.  The stored procedure
`generate_recommendations_for_user_v2` is not part of the Python source;
it is modelled from the specification (§4.4) where needed, and those
definitions say so in their doc comments.
-/

namespace MovieRec

/-- A row of the `movies` table (`backend/models.py`, class `Movie`). -/
structure Movie where
  movie_id : Int
  title : String
  genre : Option String
  release_year : Option Int
  avg_rating : ℚ
  ratings_count : Nat
  poster_path : Option String
deriving DecidableEq, Repr

/-- A row of the `ratings` table (`backend/models.py`, class `Rating`).
The surrogate `rating_id` and timestamp play no role in any claim and are
omitted. -/
structure Rating where
  user_id : Int
  movie_id : Int
  rating : ℚ
deriving DecidableEq, Repr

/-- A row of the `recommendations` table (written by the stored procedure,
read by the `/recommendations` route): user id, movie id and reason. -/
structure RecEntry where
  user_id : Int
  movie_id : Int
  reason : String
deriving DecidableEq, Repr

/-- The database state: the three tables the rating/recommendation paths
touch.  Row order models the physical order the store returns rows in. -/
structure DB where
  movies : List Movie
  ratings : List Rating
  recommendations : List RecEntry
deriving DecidableEq, Repr

/-- A form field as the handler sees it after Python's parsing attempt:
absent or empty (falsy, caught by the `if not movie_id or not rating_val`
check), present but unparsable (`int(...)`/`float(...)` raises), or parsed
to a value. -/
inductive FormVal (α : Type) where
  | missing
  | invalid
  | val (a : α)
deriving DecidableEq, Repr

/-- Outcome of the `/rate` handler (`backend/app.py`, lines 147-199). -/
inductive RateResult where
  | notAuthenticated   -- 401 "not authenticated"
  | missingFields      -- 400 "missing fields"
  | invalidInput       -- 400 "invalid rating or movie id"
  | outOfRange         -- 400 "rating out of range"
  | ok                 -- 200 {"ok": true}
deriving DecidableEq, Repr

/-- The spec's `InvalidValue` error class (§7): rating outside [0,5] or
non-numeric input, both reported as HTTP 400 by the handler. -/
def RateResult.isInvalidValue : RateResult → Prop
  | .invalidInput => True
  | .outOfRange => True
  | _ => False

/-- The lookup `Rating.query.filter_by(user_id=..., movie_id=...).first()` followed by
update-or-insert (`app.py` lines 168-175): the first row for the
(user, movie) pair is updated in place, otherwise a new row is appended. -/
def upsertRating (rs : List Rating) (uid mid : Int) (v : ℚ) : List Rating :=
  match rs with
  | [] => [⟨uid, mid, v⟩]
  | r :: rest =>
    if r.user_id = uid ∧ r.movie_id = mid then
      { r with rating := v } :: rest
    else
      r :: upsertRating rest uid mid v

/-- The accessor `getRating(user, movie)` of the Rating Store (§4.1): the first
stored rating row for the pair, if any. -/
def getRating (rs : List Rating) (uid mid : Int) : Option ℚ :=
  (rs.find? (fun r => r.user_id == uid && r.movie_id == mid)).map (·.rating)

/-- SQL `ROUND(x, 2)`: round to two decimal places. -/
def round2 (q : ℚ) : ℚ := (round (q * 100) : ℤ) / 100

/-- The rating rows of a list referencing a movie (SQL
`WHERE r.movie_id = :mid`). -/
def rowsForMovie (rs : List Rating) (mid : Int) : List Rating :=
  rs.filter (fun r => r.movie_id == mid)

/-- The rating rows of a list for one (user, movie) pair. -/
def pairRows (rs : List Rating) (uid mid : Int) : List Rating :=
  rs.filter (fun r => r.user_id == uid && r.movie_id == mid)

/-- All rating rows for a movie. -/
def ratingsFor (db : DB) (mid : Int) : List Rating :=
  rowsForMovie db.ratings mid

/-- The aggregate `UPDATE movies SET ratings_count = ..., avg_rating =
COALESCE(ROUND(AVG(...), 2), 0) WHERE movie_id = :mid` (`app.py` lines
180-186). -/
def recomputeAggregates (db : DB) (mid : Int) : DB :=
  let rs := ratingsFor db mid
  { db with
    movies := db.movies.map (fun m =>
      if m.movie_id = mid then
        { m with
          ratings_count := rs.length,
          avg_rating :=
            if rs.length = 0 then 0
            else round2 (((rs.map (·.rating)).sum) / (rs.length : ℚ)) }
      else m) }

/-- All rating rows by a user (`Rating.query.filter(Rating.user_id == uid)`). -/
def ratedBy (db : DB) (uid : Int) : List Rating :=
  db.ratings.filter (fun r => r.user_id == uid)

/-- The movie ids a user has already rated. -/
def ratedMovieIds (db : DB) (uid : Int) : List Int :=
  (ratedBy db uid).map (·.movie_id)

/-- A `Movie.query.get(mid)`-style lookup by primary key. -/
def getMovie (db : DB) (mid : Int) : Option Movie :=
  db.movies.find? (fun m => m.movie_id == mid)

/-- Ordering for `ORDER BY avg_rating DESC` on movies: no tie-break, so a
stable sort keeps equal-`avg_rating` rows in store order. -/
def avgDescLE (a b : Movie) : Prop :=
  b.avg_rating ≤ a.avg_rating

instance : DecidableRel avgDescLE := fun a b =>
  inferInstanceAs (Decidable (b.avg_rating ≤ a.avg_rating))

instance : IsTotal Movie avgDescLE :=
  ⟨fun a b => le_total b.avg_rating a.avg_rating⟩

instance : IsTrans Movie avgDescLE :=
  ⟨fun _ _ _ hab hbc => le_trans hbc hab⟩

/-- Ordering of the spec's `topRated` (§4.2): `avg_rating` descending,
ties broken by movie id ascending. -/
def topRatedLE (a b : Movie) : Prop :=
  b.avg_rating < a.avg_rating ∨
    (a.avg_rating = b.avg_rating ∧ a.movie_id ≤ b.movie_id)

instance : DecidableRel topRatedLE := fun a b => by
  unfold topRatedLE
  infer_instance

instance : IsTrans Movie topRatedLE := by
  refine ⟨fun a b c hab hbc => ?_⟩
  rcases hab with h1 | ⟨h1, h2⟩ <;> rcases hbc with h3 | ⟨h3, h4⟩
  · exact Or.inl (lt_trans h3 h1)
  · exact Or.inl (by rw [← h3]; exact h1)
  · exact Or.inl (by rw [h1]; exact h3)
  · exact Or.inr ⟨h1.trans h3, le_trans h2 h4⟩

instance : IsTotal Movie topRatedLE := by
  refine ⟨fun a b => ?_⟩
  rcases lt_trichotomy a.avg_rating b.avg_rating with h | h | h
  · exact Or.inr (Or.inl h)
  · rcases le_total a.movie_id b.movie_id with h2 | h2
    · exact Or.inl (Or.inr ⟨h, h2⟩)
    · exact Or.inr (Or.inr ⟨h.symm, h2⟩)
  · exact Or.inl (Or.inl h)

/-- Ordering of the generator's ranking (§4.4 step 6): `avg_rating`
descending, then `ratings_count` descending, then movie id ascending. -/
def rankLE (a b : Movie) : Prop :=
  b.avg_rating < a.avg_rating ∨
    (a.avg_rating = b.avg_rating ∧
      (b.ratings_count < a.ratings_count ∨
        (a.ratings_count = b.ratings_count ∧ a.movie_id ≤ b.movie_id)))

instance : DecidableRel rankLE := fun a b => by
  unfold rankLE
  infer_instance

/-- Modelled from the spec: `topRated(excluding, limit)` of the Movie
Catalog Accessor (§4.2), used by the stored procedure's fallback path,
which is absent from the Python source.  SQL ordering is embedded as a
stable sort (`List.insertionSort`) of the table rows. -/
def topRated (db : DB) (excluding : List Int) (limit : Nat) : List Movie :=
  (List.insertionSort topRatedLE
    (db.movies.filter (fun m => !(excluding.contains m.movie_id)))).take limit

/-- Modelled from the spec: the Fallback Selector (§4.6),
`select(user, limit) = topRated(excluding = ratedMovieIds(user), limit)`. -/
def fallbackSelect (db : DB) (uid : Int) (limit : Nat) : List Movie :=
  topRated db (ratedMovieIds db uid) limit

/-- Whether `cand` beats `best` in §4.4 step 4's pick of the single highest-rated
movie: strictly higher rating, or equal rating and lower movie id. -/
def betterThan (cand best : Rating) : Bool :=
  decide (best.rating < cand.rating ∨
    (cand.rating = best.rating ∧ cand.movie_id < best.movie_id))

/-- The user's single highest-rated movie's rating row, tie-break lowest
movie id (§4.4 step 4). -/
def pickBest : List Rating → Option Rating
  | [] => none
  | r :: rest => some (rest.foldl (fun acc x => if betterThan x acc then x else acc) r)

/-- Modelled from the spec: the core algorithm of the stored procedure
`generate_recommendations_for_user_v2` (Recommendation Generator, §4.4
steps 1-8), which is not part of the Python source.  Returns the ranked
(movie, reason) pairs for a user. -/
def generateRecommendations (db : DB) (uid : Int) (limit : Nat) :
    List (Movie × String) :=
  let hist := ratedBy db uid
  let ratedIds := hist.map (·.movie_id)
  if hist.isEmpty then
    (fallbackSelect db uid limit).map (fun m => (m, "Top rated fallback"))
  else
    let liked := ((hist.filter (fun r => decide (4 ≤ r.rating))).filterMap
      (fun r => (getMovie db r.movie_id).bind (·.genre))).dedup
    let likedGenres :=
      if liked.isEmpty then
        match pickBest hist with
        | some r => ((getMovie db r.movie_id).bind (·.genre)).toList
        | none => []
      else liked
    let pool := db.movies.filter (fun m =>
      (match m.genre with
       | some g => likedGenres.contains g
       | none => false) && !(ratedIds.contains m.movie_id))
    let ranked := (List.insertionSort rankLE pool).take limit
    let main := ranked.map (fun m => (m, "Because you liked " ++ m.genre.getD ""))
    let chosen := ranked.map (·.movie_id)
    let fill := ((fallbackSelect db uid limit).filter
      (fun m => !(chosen.contains m.movie_id))).take (limit - ranked.length)
    main ++ fill.map (fun m => (m, "Top rated fallback"))

/-- Modelled from the spec: the Recommendation Store's
`replaceForUser` (§4.5, §4.4 step 9) — delete all of the user's
recommendation rows, then insert the newly computed list. -/
def replaceForUser (db : DB) (uid : Int) (entries : List (Movie × String)) : DB :=
  { db with
    recommendations :=
      db.recommendations.filter (fun rc => !(rc.user_id == uid)) ++
        entries.map (fun p => ⟨uid, p.1.movie_id, p.2⟩) }

/-- A row of the `/recommendations` response (the SELECT's column list at
`app.py` lines 217-224, and the dict built by the fallback at lines
240-248). -/
structure RecRow where
  user_id : Int
  movie_id : Int
  title : String
  genre : Option String
  avg_rating : ℚ
  poster_path : Option String
  reason : String
deriving DecidableEq, Repr

/-- Ordering for `ORDER BY m.avg_rating DESC` on response rows. -/
def rowAvgDescLE (a b : RecRow) : Prop :=
  b.avg_rating ≤ a.avg_rating

instance : DecidableRel rowAvgDescLE := fun a b =>
  inferInstanceAs (Decidable (b.avg_rating ≤ a.avg_rating))

instance : IsTotal RecRow rowAvgDescLE :=
  ⟨fun a b => le_total b.avg_rating a.avg_rating⟩

instance : IsTrans RecRow rowAvgDescLE :=
  ⟨fun _ _ _ hab hbc => le_trans hbc hab⟩

/-- The read of stored recommendations (`app.py` lines 217-226): rows of
the `recommendations` table for the user, inner-joined with `movies` on
movie id, ordered by the joined movie's `avg_rating` descending. -/
def readRecsJoined (db : DB) (uid : Int) : List RecRow :=
  List.insertionSort rowAvgDescLE
    ((db.recommendations.filter (fun rc => rc.user_id == uid)).filterMap
      (fun rc => (getMovie db rc.movie_id).map (fun m =>
        ⟨rc.user_id, m.movie_id, m.title, m.genre, m.avg_rating,
          m.poster_path, rc.reason⟩)))

/-- The response row the fallback builds for a movie (`app.py` lines
240-248). -/
def fallbackRow (uid : Int) (m : Movie) : RecRow :=
  ⟨uid, m.movie_id, m.title, m.genre, m.avg_rating, m.poster_path,
    "Top rated fallback"⟩

/-- The Python fallback of `/recommendations` (`app.py` lines 231-248):
movies not rated by the user, ordered by `avg_rating` descending, first
`limit` of them, each tagged "Top rated fallback". -/
def pythonFallbackRows (db : DB) (uid : Int) (limit : Nat) : List RecRow :=
  let sub := ratedMovieIds db uid
  ((List.insertionSort avgDescLE
      (db.movies.filter (fun m => !(sub.contains m.movie_id)))).take limit).map
    (fallbackRow uid)

/-- The `/recommendations` handler (`app.py` lines 202-250).  `none` models
the redirect to login.  `procOk` says whether the stored-procedure call
succeeds; on failure the handler falls back to the direct query.  The
stored procedure itself is modelled from the spec
(`generateRecommendations`, `replaceForUser`). -/
def recommendations (db : DB) (sessionUser : Option Int) (limitArg : Option Nat)
    (procOk : Bool) : Option (List RecRow × DB) :=
  match sessionUser with
  | none => none
  | some uid =>
    let limit := limitArg.getD 20
    if procOk then
      let db1 := replaceForUser db uid (generateRecommendations db uid limit)
      some (readRecsJoined db1 uid, db1)
    else
      some (pythonFallbackRows db uid limit, db)

/-- The limit the `/rate` handler passes to
`generate_recommendations_for_user_v2` (`app.py` line 195). -/
def rateAutoRecLimit : Nat := 15

/-- The `/rate` handler (`app.py` lines 147-199).  `aggOk` and `recOk` say
whether the two side-effect store calls (aggregate update, auto
recommendation regeneration) succeed; each is wrapped in `try/except` in
the source, so a failure skips only that effect. -/
def rate (db : DB) (sessionUser : Option Int) (movieField : FormVal Int)
    (ratingField : FormVal ℚ) (aggOk recOk : Bool) : RateResult × DB :=
  match sessionUser with
  | none => (.notAuthenticated, db)
  | some uid =>
    match movieField, ratingField with
    | .missing, _ => (.missingFields, db)
    | _, .missing => (.missingFields, db)
    | .invalid, _ => (.invalidInput, db)
    | _, .invalid => (.invalidInput, db)
    | .val mid, .val v =>
      if 0 ≤ v ∧ v ≤ 5 then
        let db1 := { db with ratings := upsertRating db.ratings uid mid v }
        let db2 := if aggOk then recomputeAggregates db1 mid else db1
        let db3 :=
          if recOk then
            replaceForUser db2 uid (generateRecommendations db2 uid rateAutoRecLimit)
          else db2
        (.ok, db3)
      else
        (.outOfRange, db)

/-! ### Sample data for witnesses -/

/-- A sample catalog entry. -/
def sampleMovie : Movie := ⟨1, "Inception", some "Sci-Fi", some 2010, 0, 0, none⟩

/-- A sample database with one movie and no ratings. -/
def sampleDB : DB := ⟨[sampleMovie], [], []⟩

/-! ### Helper lemmas about the rating write path -/

theorem getRating_upsertRating (rs : List Rating) (uid mid : Int) (v : ℚ) :
    getRating (upsertRating rs uid mid v) uid mid = some v := by
  induction rs with
  | nil => simp [upsertRating, getRating]
  | cons r rest ih =>
    rw [upsertRating]
    by_cases h : r.user_id = uid ∧ r.movie_id = mid
    · simp [h, getRating, h.1, h.2]
    · rw [if_neg h]
      have hpred : (r.user_id == uid && r.movie_id == mid) = false := by
        rw [Bool.and_eq_false_iff]
        rcases not_and_or.mp h with h1 | h1
        · exact Or.inl (beq_eq_false_iff_ne.mpr h1)
        · exact Or.inr (beq_eq_false_iff_ne.mpr h1)
      rw [getRating] at ih ⊢
      simp only [List.find?_cons, hpred]
      exact ih

theorem exists_row_upsertRating (rs : List Rating) (uid mid : Int) (v : ℚ) :
    ∃ r ∈ upsertRating rs uid mid v,
      r.user_id = uid ∧ r.movie_id = mid ∧ r.rating = v := by
  have h := getRating_upsertRating rs uid mid v
  rw [getRating] at h
  cases hf : (upsertRating rs uid mid v).find?
      (fun r => r.user_id == uid && r.movie_id == mid) with
  | none => rw [hf] at h; simp at h
  | some r0 =>
    rw [hf] at h
    simp only [Option.map_some', Option.some.injEq] at h
    have hm := List.mem_of_find?_eq_some hf
    have hp := List.find?_some hf
    simp only [Bool.and_eq_true, beq_iff_eq] at hp
    exact ⟨r0, hm, hp.1, hp.2, by simpa using h⟩

theorem rate_val_eq (db : DB) (uid mid : Int) (v : ℚ) (aggOk recOk : Bool)
    (hv : 0 ≤ v ∧ v ≤ 5) :
    rate db (some uid) (.val mid) (.val v) aggOk recOk =
      (.ok,
        let db1 : DB := { db with ratings := upsertRating db.ratings uid mid v }
        let db2 := if aggOk then recomputeAggregates db1 mid else db1
        if recOk then
          replaceForUser db2 uid (generateRecommendations db2 uid rateAutoRecLimit)
        else db2) := by
  simp [rate, hv]

theorem rate_val_fst (db : DB) (uid mid : Int) (v : ℚ) (aggOk recOk : Bool)
    (hv : 0 ≤ v ∧ v ≤ 5) :
    (rate db (some uid) (.val mid) (.val v) aggOk recOk).1 = .ok := by
  rw [rate_val_eq db uid mid v aggOk recOk hv]

theorem rate_val_ratings (db : DB) (uid mid : Int) (v : ℚ) (aggOk recOk : Bool)
    (hv : 0 ≤ v ∧ v ≤ 5) :
    (rate db (some uid) (.val mid) (.val v) aggOk recOk).2.ratings =
      upsertRating db.ratings uid mid v := by
  rw [rate_val_eq db uid mid v aggOk recOk hv]
  cases aggOk <;> cases recOk <;> rfl

/-! ### C4: invalid rating values are rejected before any write -/

/-- C4: for a rating value outside [0,5] or a non-numeric rating input,
the `/rate` handler fails with the spec's `InvalidValue` error (an HTTP
400) and the database — in particular the rating store — is unchanged. -/
theorem rate_invalid_value_unchanged (db : DB) (uid mid : Int)
    (rf : FormVal ℚ) (aggOk recOk : Bool)
    (h : rf = .invalid ∨ ∃ v, rf = .val v ∧ ¬(0 ≤ v ∧ v ≤ 5)) :
    (rate db (some uid) (.val mid) rf aggOk recOk).1.isInvalidValue ∧
    (rate db (some uid) (.val mid) rf aggOk recOk).2 = db := by
  rcases h with h | ⟨v, rfl, hv⟩
  · subst h
    exact ⟨trivial, rfl⟩
  · simp [rate, hv, RateResult.isInvalidValue]

/-- Witness for C4 at the concrete out-of-range value 6. -/
theorem rate_invalid_value_unchanged_witness :
    ((FormVal.val (6 : ℚ)) = .invalid ∨
      ∃ v, (FormVal.val (6 : ℚ)) = .val v ∧ ¬(0 ≤ v ∧ v ≤ 5)) ∧
    ((rate sampleDB (some 1) (.val 1) (.val 6) true true).1.isInvalidValue ∧
     (rate sampleDB (some 1) (.val 1) (.val 6) true true).2 = sampleDB) :=
  ⟨Or.inr ⟨6, rfl, by norm_num⟩,
   rate_invalid_value_unchanged sampleDB 1 1 (.val 6) true true
     (Or.inr ⟨6, rfl, by norm_num⟩)⟩

/-! ### C6: side-effect failures do not undo the write or the success -/

/-- C6: whatever the outcome of the aggregate recalculation and of the
recommendation regeneration (`aggOk`, `recOk`), a valid rating write still
reports `ok` and the written rating row is retained. -/
theorem rate_side_effect_failure_ok (db : DB) (uid mid : Int) (v : ℚ)
    (aggOk recOk : Bool) (hv : 0 ≤ v ∧ v ≤ 5) :
    (rate db (some uid) (.val mid) (.val v) aggOk recOk).1 = .ok ∧
    (rate db (some uid) (.val mid) (.val v) aggOk recOk).2.ratings =
      upsertRating db.ratings uid mid v :=
  ⟨rate_val_fst db uid mid v aggOk recOk hv,
   rate_val_ratings db uid mid v aggOk recOk hv⟩

/-- Witness for C6 with both side effects failing. -/
theorem rate_side_effect_failure_ok_witness :
    ((0 : ℚ) ≤ 4 ∧ (4 : ℚ) ≤ 5) ∧
    ((rate sampleDB (some 1) (.val 1) (.val 4) false false).1 = .ok ∧
     (rate sampleDB (some 1) (.val 1) (.val 4) false false).2.ratings =
       upsertRating sampleDB.ratings 1 1 4) :=
  ⟨by norm_num, rate_side_effect_failure_ok sampleDB 1 1 4 false false (by norm_num)⟩

/-! ### C8: write-then-read round trip -/

/-- C8: after a valid rating write of value `v`, reading the rating for
that (user, movie) pair returns exactly `v`. -/
theorem upsert_get_roundtrip (db : DB) (uid mid : Int) (v : ℚ)
    (aggOk recOk : Bool) (hv : 0 ≤ v ∧ v ≤ 5) :
    getRating ((rate db (some uid) (.val mid) (.val v) aggOk recOk).2.ratings)
      uid mid = some v := by
  rw [rate_val_ratings db uid mid v aggOk recOk hv]
  exact getRating_upsertRating db.ratings uid mid v

/-- Witness for C8 at the concrete value 7/2. -/
theorem upsert_get_roundtrip_witness :
    ((0 : ℚ) ≤ 7/2 ∧ (7/2 : ℚ) ≤ 5) ∧
    getRating ((rate sampleDB (some 1) (.val 1) (.val (7/2)) true true).2.ratings)
      1 1 = some (7/2) :=
  ⟨by norm_num, upsert_get_roundtrip sampleDB 1 1 (7/2) true true (by norm_num)⟩

/-! ### C10: rate never checks that the movie exists -/

/-- C10: the `/rate` handler accepts any movie id — in particular one with
no row in the movie catalog (`getMovie db mid = none`) — and an in-range
value: it reports `ok` and a rating row for the pair exists afterwards.
There is no `NotFound` outcome on this path. -/
theorem rate_ignores_movie_existence (db : DB) (uid mid : Int) (v : ℚ)
    (aggOk recOk : Bool) (_hm : getMovie db mid = none) (hv : 0 ≤ v ∧ v ≤ 5) :
    (rate db (some uid) (.val mid) (.val v) aggOk recOk).1 = .ok ∧
    ∃ r ∈ (rate db (some uid) (.val mid) (.val v) aggOk recOk).2.ratings,
      r.user_id = uid ∧ r.movie_id = mid ∧ r.rating = v := by
  refine ⟨rate_val_fst db uid mid v aggOk recOk hv, ?_⟩
  rw [rate_val_ratings db uid mid v aggOk recOk hv]
  exact exists_row_upsertRating db.ratings uid mid v

/-- Witness for C10: movie id 99 has no catalog row in `sampleDB`. -/
theorem rate_ignores_movie_existence_witness :
    (getMovie sampleDB 99 = none ∧ (0 : ℚ) ≤ 5 ∧ (5 : ℚ) ≤ 5) ∧
    ((rate sampleDB (some 1) (.val 99) (.val 5) true true).1 = .ok ∧
     ∃ r ∈ (rate sampleDB (some 1) (.val 99) (.val 5) true true).2.ratings,
       r.user_id = 1 ∧ r.movie_id = 99 ∧ r.rating = 5) :=
  ⟨⟨by decide, by norm_num⟩,
   rate_ignores_movie_existence sampleDB 1 99 5 true true (by decide) (by norm_num)⟩

/-! ### C3: aggregates match the rating table after a write -/

/-- The aggregate invariant of §4.3 for movie `mid`: its stored
`ratings_count` is the number of rating rows referencing it and its stored
`avg_rating` is the 2-decimal-rounded mean of their values (0 when there
are none). -/
def aggCorrect (db : DB) (mid : Int) : Prop :=
  ∀ m ∈ db.movies, m.movie_id = mid →
    m.ratings_count = (ratingsFor db mid).length ∧
    m.avg_rating =
      (if (ratingsFor db mid).length = 0 then 0
       else round2 (((ratingsFor db mid).map (·.rating)).sum /
         ((ratingsFor db mid).length : ℚ)))

theorem aggCorrect_recompute (db : DB) (mid : Int) :
    aggCorrect (recomputeAggregates db mid) mid := by
  intro m hm hmid
  have hr : ratingsFor (recomputeAggregates db mid) mid = ratingsFor db mid := rfl
  rw [hr]
  simp only [recomputeAggregates, List.mem_map] at hm
  obtain ⟨m0, _, rfl⟩ := hm
  by_cases h : m0.movie_id = mid
  · simp [h]
  · simp only [if_neg h] at hmid
    exact absurd hmid h

theorem recompute_idem (db : DB) (mid : Int) :
    recomputeAggregates (recomputeAggregates db mid) mid =
      recomputeAggregates db mid := by
  cases db with
  | mk ms rs recs =>
    simp only [recomputeAggregates, ratingsFor, List.map_map, DB.mk.injEq,
      and_true, true_and]
    apply List.map_congr_left
    intro m _
    by_cases h : m.movie_id = mid
    · simp [Function.comp, h]
    · simp [Function.comp, h]

theorem rate_val_movies_agg (db : DB) (uid mid : Int) (v : ℚ) (recOk : Bool)
    (hv : 0 ≤ v ∧ v ≤ 5) :
    (rate db (some uid) (.val mid) (.val v) true recOk).2.movies =
      (recomputeAggregates { db with ratings := upsertRating db.ratings uid mid v }
        mid).movies := by
  rw [rate_val_eq db uid mid v true recOk hv]
  cases recOk <;> rfl

/-- C3: after a successful rating write for movie `mid` in which the
aggregate update ran (`aggOk = true`), the movie's stored count is the
number of its rating rows and its stored average is their rounded mean
(0 for an empty set of rows); and the recomputation is idempotent. -/
theorem rate_aggregates_correct (db : DB) (uid mid : Int) (v : ℚ)
    (recOk : Bool) (hv : 0 ≤ v ∧ v ≤ 5) :
    aggCorrect (rate db (some uid) (.val mid) (.val v) true recOk).2 mid ∧
    recomputeAggregates (recomputeAggregates db mid) mid =
      recomputeAggregates db mid := by
  constructor
  · rw [rate_val_eq db uid mid v true recOk hv]
    cases recOk
    · exact aggCorrect_recompute _ mid
    · exact aggCorrect_recompute _ mid
  · exact recompute_idem db mid

/-- Witness for C3 at a concrete write. -/
theorem rate_aggregates_correct_witness :
    ((0 : ℚ) ≤ 4 ∧ (4 : ℚ) ≤ 5) ∧
    (aggCorrect (rate sampleDB (some 1) (.val 1) (.val 4) true true).2 1 ∧
     recomputeAggregates (recomputeAggregates sampleDB 1) 1 =
       recomputeAggregates sampleDB 1) :=
  ⟨by norm_num, rate_aggregates_correct sampleDB 1 1 4 true (by norm_num)⟩

/-! ### C5: at most one rating row per (user, movie) pair -/

theorem pairRows_upsert (rs : List Rating) (uid mid : Int) (v : ℚ)
    (hlen : (pairRows rs uid mid).length ≤ 1) :
    pairRows (upsertRating rs uid mid v) uid mid = [⟨uid, mid, v⟩] := by
  induction rs with
  | nil => simp [upsertRating, pairRows]
  | cons r rest ih =>
    rw [upsertRating]
    by_cases h : r.user_id = uid ∧ r.movie_id = mid
    · rw [if_pos h]
      have hcons : pairRows (r :: rest) uid mid = r :: pairRows rest uid mid := by
        simp [pairRows, List.filter_cons, h.1, h.2]
      rw [hcons] at hlen
      simp only [List.length_cons] at hlen
      have hrest : pairRows rest uid mid = [] :=
        List.eq_nil_of_length_eq_zero (by omega)
      have : Rating.mk r.user_id r.movie_id v = Rating.mk uid mid v := by
        rw [h.1, h.2]
      simp only [pairRows, List.filter_cons] at hrest ⊢
      simp [h.1, h.2, hrest, this]
    · rw [if_neg h]
      have hpred : (r.user_id == uid && r.movie_id == mid) = false := by
        rw [Bool.and_eq_false_iff]
        rcases not_and_or.mp h with h1 | h1
        · exact Or.inl (beq_eq_false_iff_ne.mpr h1)
        · exact Or.inr (beq_eq_false_iff_ne.mpr h1)
      have hcons : pairRows (r :: rest) uid mid = pairRows rest uid mid := by
        simp [pairRows, List.filter_cons, hpred]
      rw [hcons] at hlen
      have : pairRows (r :: upsertRating rest uid mid v) uid mid =
          pairRows (upsertRating rest uid mid v) uid mid := by
        simp [pairRows, List.filter_cons, hpred]
      rw [this]
      exact ih hlen

theorem rowsForMovie_upsert (rs : List Rating) (uid mid : Int) (v : ℚ)
    (honly : rowsForMovie rs mid = pairRows rs uid mid)
    (hlen : (pairRows rs uid mid).length ≤ 1) :
    rowsForMovie (upsertRating rs uid mid v) mid = [⟨uid, mid, v⟩] := by
  induction rs with
  | nil => simp [upsertRating, rowsForMovie]
  | cons r rest ih =>
    rw [upsertRating]
    by_cases h : r.user_id = uid ∧ r.movie_id = mid
    · rw [if_pos h]
      have hconsP : pairRows (r :: rest) uid mid = r :: pairRows rest uid mid := by
        simp [pairRows, List.filter_cons, h.1, h.2]
      have hconsM : rowsForMovie (r :: rest) mid = r :: rowsForMovie rest mid := by
        simp [rowsForMovie, List.filter_cons, h.2]
      rw [hconsP] at hlen honly
      rw [hconsM] at honly
      have hrestP : pairRows rest uid mid = [] :=
        List.eq_nil_of_length_eq_zero
          (by simp only [List.length_cons] at hlen; omega)
      have hrestM : rowsForMovie rest mid = [] := by
        have htail : rowsForMovie rest mid = pairRows rest uid mid :=
          (List.cons.injEq r _ r _ ▸ honly).2
        rw [htail, hrestP]
      have hrow : Rating.mk r.user_id r.movie_id v = Rating.mk uid mid v := by
        rw [h.1, h.2]
      simp only [rowsForMovie, List.filter_cons] at hrestM ⊢
      simp [h.1, h.2, hrestM, hrow]
    · rw [if_neg h]
      have hpred : (r.user_id == uid && r.movie_id == mid) = false := by
        rw [Bool.and_eq_false_iff]
        rcases not_and_or.mp h with h1 | h1
        · exact Or.inl (beq_eq_false_iff_ne.mpr h1)
        · exact Or.inr (beq_eq_false_iff_ne.mpr h1)
      have hconsP : pairRows (r :: rest) uid mid = pairRows rest uid mid := by
        simp [pairRows, List.filter_cons, hpred]
      by_cases hmov : r.movie_id = mid
      · exfalso
        have hconsM : rowsForMovie (r :: rest) mid = r :: rowsForMovie rest mid := by
          simp [rowsForMovie, List.filter_cons, hmov]
        rw [hconsM, hconsP] at honly
        have hmem : r ∈ pairRows rest uid mid := by
          rw [← honly]; exact List.mem_cons_self r _
        rw [pairRows] at hmem
        have := List.of_mem_filter hmem
        simp only [Bool.and_eq_true, beq_iff_eq] at this
        exact h this
      · have hconsM : rowsForMovie (r :: rest) mid = rowsForMovie rest mid := by
          simp [rowsForMovie, List.filter_cons, hmov]
        rw [hconsM, hconsP] at honly
        rw [hconsP] at hlen
        have : rowsForMovie (r :: upsertRating rest uid mid v) mid =
            rowsForMovie (upsertRating rest uid mid v) mid := by
          simp [rowsForMovie, List.filter_cons, hmov]
        rw [this]
        exact ih honly hlen

/-- A sequence of `/rate` requests by one user for one movie, applied in
order to the database state. -/
def applyRates (db : DB) (uid mid : Int) (vs : List ℚ) (aggOk recOk : Bool) : DB :=
  vs.foldl (fun d v => (rate d (some uid) (.val mid) (.val v) aggOk recOk).2) db

theorem rate_last_movies (db : DB) (uid mid : Int) (v : ℚ) (recOk : Bool)
    (hv : 0 ≤ v ∧ v ≤ 5)
    (honly : rowsForMovie db.ratings mid = pairRows db.ratings uid mid)
    (hlen : (pairRows db.ratings uid mid).length ≤ 1) :
    ∀ m ∈ (rate db (some uid) (.val mid) (.val v) true recOk).2.movies,
      m.movie_id = mid → m.ratings_count = 1 ∧ m.avg_rating = round2 v := by
  intro m hm hmid
  rw [rate_val_movies_agg db uid mid v recOk hv] at hm
  have hrows : ratingsFor
      { db with ratings := upsertRating db.ratings uid mid v } mid =
      [⟨uid, mid, v⟩] := by
    show rowsForMovie (upsertRating db.ratings uid mid v) mid = _
    exact rowsForMovie_upsert db.ratings uid mid v honly hlen
  simp only [recomputeAggregates, List.mem_map] at hm
  obtain ⟨m0, _, rfl⟩ := hm
  by_cases h : m0.movie_id = mid
  · rw [hrows]
    constructor
    · simp [h]
    · simp [h, hrows]
  · simp only [if_neg h] at hmid
    exact absurd hmid h

theorem applyRates_pair (uid mid : Int) (aggOk recOk : Bool) (vs : List ℚ) :
    ∀ db : DB, (∀ v ∈ vs, 0 ≤ v ∧ v ≤ 5) →
      (pairRows db.ratings uid mid).length ≤ 1 →
      ((pairRows (applyRates db uid mid vs aggOk recOk).ratings uid mid).length ≤ 1 ∧
       ∀ w, vs.getLast? = some w →
         pairRows (applyRates db uid mid vs aggOk recOk).ratings uid mid =
           [⟨uid, mid, w⟩]) := by
  induction vs with
  | nil =>
    intro db _ hlen
    refine ⟨hlen, ?_⟩
    intro w hw
    simp at hw
  | cons v rest ih =>
    intro db hvs hlen
    have hv : 0 ≤ v ∧ v ≤ 5 := hvs v (List.mem_cons_self v rest)
    have hstep : applyRates db uid mid (v :: rest) aggOk recOk =
        applyRates ((rate db (some uid) (.val mid) (.val v) aggOk recOk).2)
          uid mid rest aggOk recOk := by
      simp [applyRates]
    have hrat : ((rate db (some uid) (.val mid) (.val v) aggOk recOk).2).ratings =
        upsertRating db.ratings uid mid v :=
      rate_val_ratings db uid mid v aggOk recOk hv
    have hpair1 : pairRows
        ((rate db (some uid) (.val mid) (.val v) aggOk recOk).2).ratings uid mid =
        [⟨uid, mid, v⟩] := by
      rw [hrat]
      exact pairRows_upsert db.ratings uid mid v hlen
    have hlen1 : (pairRows
        ((rate db (some uid) (.val mid) (.val v) aggOk recOk).2).ratings
          uid mid).length ≤ 1 := by
      rw [hpair1]; simp
    have hvs1 : ∀ w ∈ rest, 0 ≤ w ∧ w ≤ 5 := fun w hw =>
      hvs w (List.mem_cons_of_mem v hw)
    cases rest with
    | nil =>
      rw [hstep]
      refine ⟨hlen1, ?_⟩
      intro w hw
      simp only [List.getLast?_singleton, Option.some.injEq] at hw
      subst hw
      simpa [applyRates] using hpair1
    | cons r t =>
      rw [hstep]
      refine ⟨(ih _ hvs1 hlen1).1, ?_⟩
      intro w hw
      rw [List.getLast?_cons_cons] at hw
      exact (ih _ hvs1 hlen1).2 w hw

theorem applyRates_agg (uid mid : Int) (recOk : Bool) (vs : List ℚ) :
    ∀ db : DB, (∀ v ∈ vs, 0 ≤ v ∧ v ≤ 5) →
      rowsForMovie db.ratings mid = pairRows db.ratings uid mid →
      (pairRows db.ratings uid mid).length ≤ 1 →
      ∀ w, vs.getLast? = some w →
        ∀ m ∈ (applyRates db uid mid vs true recOk).movies, m.movie_id = mid →
          m.ratings_count = 1 ∧ m.avg_rating = round2 w := by
  induction vs with
  | nil =>
    intro db _ _ _ w hw
    simp at hw
  | cons v rest ih =>
    intro db hvs honly hlen w hw
    have hv : 0 ≤ v ∧ v ≤ 5 := hvs v (List.mem_cons_self v rest)
    have hstep : applyRates db uid mid (v :: rest) true recOk =
        applyRates ((rate db (some uid) (.val mid) (.val v) true recOk).2)
          uid mid rest true recOk := by
      simp [applyRates]
    have hrat : ((rate db (some uid) (.val mid) (.val v) true recOk).2).ratings =
        upsertRating db.ratings uid mid v :=
      rate_val_ratings db uid mid v true recOk hv
    have hpair1 : pairRows
        ((rate db (some uid) (.val mid) (.val v) true recOk).2).ratings uid mid =
        [⟨uid, mid, v⟩] := by
      rw [hrat]
      exact pairRows_upsert db.ratings uid mid v hlen
    have hrows1 : rowsForMovie
        ((rate db (some uid) (.val mid) (.val v) true recOk).2).ratings mid =
        [⟨uid, mid, v⟩] := by
      rw [hrat]
      exact rowsForMovie_upsert db.ratings uid mid v honly hlen
    have honly1 : rowsForMovie
        ((rate db (some uid) (.val mid) (.val v) true recOk).2).ratings mid =
        pairRows ((rate db (some uid) (.val mid) (.val v) true recOk).2).ratings
          uid mid := by
      rw [hpair1, hrows1]
    have hlen1 : (pairRows
        ((rate db (some uid) (.val mid) (.val v) true recOk).2).ratings
          uid mid).length ≤ 1 := by
      rw [hpair1]; simp
    have hvs1 : ∀ u ∈ rest, 0 ≤ u ∧ u ≤ 5 := fun u hu =>
      hvs u (List.mem_cons_of_mem v hu)
    cases rest with
    | nil =>
      simp only [List.getLast?_singleton, Option.some.injEq] at hw
      subst hw
      rw [hstep]
      simpa [applyRates] using rate_last_movies db uid mid v recOk hv honly hlen
    | cons r t =>
      rw [List.getLast?_cons_cons] at hw
      rw [hstep]
      exact ih _ hvs1 honly1 hlen1 w hw

/-- C5: starting from a store with at most one rating row for the
(user, movie) pair, any sequence of in-range rate requests leaves at most
one row for the pair; after a nonempty sequence that row holds exactly the
latest value; and when all of the movie's rows are this user's and the
aggregate update runs, the movie's aggregates reflect only the final
value. -/
theorem rate_upsert_single_row (db : DB) (uid mid : Int) (vs : List ℚ)
    (aggOk recOk : Bool) (hvs : ∀ v ∈ vs, 0 ≤ v ∧ v ≤ 5)
    (hlen : (pairRows db.ratings uid mid).length ≤ 1) :
    (pairRows (applyRates db uid mid vs aggOk recOk).ratings uid mid).length ≤ 1 ∧
    (∀ w, vs.getLast? = some w →
      pairRows (applyRates db uid mid vs aggOk recOk).ratings uid mid =
        [⟨uid, mid, w⟩]) ∧
    (rowsForMovie db.ratings mid = pairRows db.ratings uid mid →
      ∀ w, vs.getLast? = some w →
        ∀ m ∈ (applyRates db uid mid vs true recOk).movies, m.movie_id = mid →
          m.ratings_count = 1 ∧ m.avg_rating = round2 w) :=
  ⟨(applyRates_pair uid mid aggOk recOk vs db hvs hlen).1,
   (applyRates_pair uid mid aggOk recOk vs db hvs hlen).2,
   fun honly => applyRates_agg uid mid recOk vs db hvs honly hlen⟩

/-- Witness for C5: the spec's scenario — one user rates the same movie
4.0 then 2.0; exactly one row with value 2 remains and the aggregates
show count 1, average 2. -/
theorem rate_upsert_single_row_witness :
    ((∀ v ∈ [(4 : ℚ), 2], 0 ≤ v ∧ v ≤ 5) ∧
     (pairRows sampleDB.ratings 1 1).length ≤ 1) ∧
    ((pairRows (applyRates sampleDB 1 1 [4, 2] true true).ratings 1 1).length ≤ 1 ∧
     (∀ w, [(4 : ℚ), 2].getLast? = some w →
       pairRows (applyRates sampleDB 1 1 [4, 2] true true).ratings 1 1 =
         [⟨1, 1, w⟩]) ∧
     (rowsForMovie sampleDB.ratings 1 = pairRows sampleDB.ratings 1 1 →
       ∀ w, [(4 : ℚ), 2].getLast? = some w →
         ∀ m ∈ (applyRates sampleDB 1 1 [4, 2] true true).movies, m.movie_id = 1 →
           m.ratings_count = 1 ∧ m.avg_rating = round2 w)) :=
  ⟨⟨by intro v hv; fin_cases hv <;> norm_num, by simp [sampleDB, pairRows]⟩,
   rate_upsert_single_row sampleDB 1 1 [4, 2] true true
     (by intro v hv; fin_cases hv <;> norm_num) (by simp [sampleDB, pairRows])⟩

/-! ### Generic list lemmas -/

theorem filterMap_congr_some {α β : Type} (f : α → Option β) (g : α → β) :
    ∀ l : List α, (∀ a ∈ l, f a = some (g a)) → l.filterMap f = l.map g := by
  intro l h
  induction l with
  | nil => rfl
  | cons a t ih =>
    rw [List.filterMap_cons, h a (List.mem_cons_self a t), List.map_cons,
      ih (fun x hx => h x (List.mem_cons_of_mem a hx))]

/-! ### C1: recommendations never include an already-rated movie -/

theorem mem_topRated (db : DB) (excl : List Int) (limit : Nat) (m : Movie)
    (hm : m ∈ topRated db excl limit) : excl.contains m.movie_id = false := by
  rw [topRated] at hm
  have h1 := (List.mem_insertionSort _).mp (List.take_subset _ _ hm)
  have h2 := List.of_mem_filter h1
  simpa using h2

theorem topRated_subset (db : DB) (excl : List Int) (limit : Nat) (m : Movie)
    (hm : m ∈ topRated db excl limit) : m ∈ db.movies := by
  rw [topRated] at hm
  exact List.mem_of_mem_filter ((List.mem_insertionSort _).mp (List.take_subset _ _ hm))

theorem mem_generateRecommendations (db : DB) (uid : Int) (limit : Nat)
    (p : Movie × String) (hp : p ∈ generateRecommendations db uid limit) :
    (ratedMovieIds db uid).contains p.1.movie_id = false := by
  simp only [generateRecommendations] at hp
  by_cases hh : (ratedBy db uid).isEmpty
  · rw [if_pos hh] at hp
    obtain ⟨m, hm, rfl⟩ := List.mem_map.mp hp
    exact mem_topRated db _ limit m hm
  · rw [if_neg hh] at hp
    rcases List.mem_append.mp hp with hmain | hfill
    · obtain ⟨m, hm, rfl⟩ := List.mem_map.mp hmain
      have h1 := (List.mem_insertionSort _).mp (List.take_subset _ _ hm)
      have h2 := List.of_mem_filter h1
      simp only [Bool.and_eq_true, Bool.not_eq_eq_eq_not, Bool.not_true] at h2
      exact h2.2
    · obtain ⟨m, hm, rfl⟩ := List.mem_map.mp hfill
      have h1 : m ∈ fallbackSelect db uid limit :=
        List.mem_of_mem_filter (List.take_subset _ _ hm)
      exact mem_topRated db _ limit m h1

theorem mem_pythonFallbackRows (db : DB) (uid : Int) (limit : Nat) (row : RecRow)
    (hr : row ∈ pythonFallbackRows db uid limit) :
    (ratedMovieIds db uid).contains row.movie_id = false := by
  simp only [pythonFallbackRows] at hr
  obtain ⟨m, hm, rfl⟩ := List.mem_map.mp hr
  have h1 := (List.mem_insertionSort _).mp (List.take_subset _ _ hm)
  have h2 := List.of_mem_filter h1
  simpa using h2

theorem mem_readRecsJoined (db : DB) (uid : Int) (row : RecRow)
    (hr : row ∈ readRecsJoined db uid) :
    ∃ rc ∈ db.recommendations, rc.user_id = uid ∧ rc.movie_id = row.movie_id := by
  simp only [readRecsJoined] at hr
  obtain ⟨rc, hrc, hmap⟩ := List.mem_filterMap.mp ((List.mem_insertionSort _).mp hr)
  cases hg : getMovie db rc.movie_id with
  | none => rw [hg] at hmap; simp at hmap
  | some m =>
    rw [hg] at hmap
    simp only [Option.map_some', Option.some.injEq] at hmap
    rw [getMovie] at hg
    have hfind := List.find?_some hg
    simp only [beq_iff_eq] at hfind
    have hu := List.of_mem_filter hrc
    refine ⟨rc, List.mem_of_mem_filter hrc, by simpa using hu, ?_⟩
    rw [← hmap]
    exact hfind.symm

theorem recs_replaceForUser (db : DB) (uid : Int) (entries : List (Movie × String))
    (rc : RecEntry) (hrc : rc ∈ (replaceForUser db uid entries).recommendations)
    (hu : rc.user_id = uid) :
    ∃ p ∈ entries, rc.movie_id = p.1.movie_id := by
  simp only [replaceForUser] at hrc
  rcases List.mem_append.mp hrc with hold | hnew
  · have := List.of_mem_filter hold
    simp [hu] at this
  · obtain ⟨p, hp, hpe⟩ := List.mem_map.mp hnew
    exact ⟨p, hp, by rw [← hpe]⟩

/-- C1: whichever path serves the request — the stored-procedure path
(modelled from the spec) or the Python fallback — no returned row's movie
id is among the ids the user has already rated. -/
theorem recommendations_exclude_rated (db : DB) (uid : Int)
    (limitArg : Option Nat) (procOk : Bool) (rows : List RecRow) (db2 : DB)
    (h : recommendations db (some uid) limitArg procOk = some (rows, db2)) :
    ∀ row ∈ rows, (ratedMovieIds db uid).contains row.movie_id = false := by
  intro row hrow
  cases procOk
  · simp only [recommendations, if_neg (Bool.false_ne_true), Option.some.injEq,
      Prod.mk.injEq] at h
    rw [← h.1] at hrow
    exact mem_pythonFallbackRows db uid _ row hrow
  · simp only [recommendations, eq_self_iff_true, if_true, Option.some.injEq,
      Prod.mk.injEq] at h
    rw [← h.1] at hrow
    obtain ⟨rc, hrc, hu, hmid⟩ := mem_readRecsJoined _ uid row hrow
    obtain ⟨p, hp, hpe⟩ := recs_replaceForUser db uid _ rc hrc hu
    rw [← hmid, hpe]
    exact mem_generateRecommendations db uid _ p hp

/-! ### C2: a user with zero ratings gets exactly the fallback list -/

theorem find?_id_self : ∀ l : List Movie, (l.map (·.movie_id)).Nodup →
    ∀ m ∈ l, l.find? (fun x => x.movie_id == m.movie_id) = some m := by
  intro l
  induction l with
  | nil => intro _ m hm; simp at hm
  | cons a t ih =>
    intro hN m hm
    rw [List.map_cons, List.nodup_cons] at hN
    rcases List.mem_cons.mp hm with rfl | hmt
    · simp [List.find?_cons]
    · have hne : (a.movie_id == m.movie_id) = false := by
        refine beq_eq_false_iff_ne.mpr fun hEq => hN.1 ?_
        rw [hEq]
        exact List.mem_map_of_mem (·.movie_id) hmt
      simp only [List.find?_cons, hne, cond_false]
      exact ih hN.2 m hmt

theorem getMovie_self (db : DB) (hN : (db.movies.map (·.movie_id)).Nodup)
    (m : Movie) (hm : m ∈ db.movies) : getMovie db m.movie_id = some m :=
  find?_id_self db.movies hN m hm

theorem filter_replaceForUser (db : DB) (uid : Int)
    (entries : List (Movie × String)) :
    (replaceForUser db uid entries).recommendations.filter
      (fun rc => rc.user_id == uid) =
      entries.map (fun p => (⟨uid, p.1.movie_id, p.2⟩ : RecEntry)) := by
  simp only [replaceForUser, List.filter_append]
  have h1 : (db.recommendations.filter fun rc => !(rc.user_id == uid)).filter
      (fun rc => rc.user_id == uid) = [] := by
    rw [List.filter_filter]
    simp [Bool.and_not_self]
  have h2 : (entries.map (fun p => (⟨uid, p.1.movie_id, p.2⟩ : RecEntry))).filter
      (fun rc => rc.user_id == uid) =
      entries.map (fun p => (⟨uid, p.1.movie_id, p.2⟩ : RecEntry)) := by
    rw [List.filter_map]
    have hc : ((fun rc : RecEntry => rc.user_id == uid) ∘
        fun p : Movie × String => (⟨uid, p.1.movie_id, p.2⟩ : RecEntry)) =
        fun _ => true := by
      funext p
      simp [Function.comp]
    rw [hc, List.filter_true]
  rw [h1, h2, List.nil_append]

theorem genRec_zero (db : DB) (uid : Int) (limit : Nat)
    (hzero : ratedBy db uid = []) :
    generateRecommendations db uid limit =
      (fallbackSelect db uid limit).map (fun m => (m, "Top rated fallback")) := by
  simp [generateRecommendations, hzero]

theorem pairwise_topRated (db : DB) (excl : List Int) (limit : Nat) :
    (topRated db excl limit).Pairwise topRatedLE := by
  rw [topRated]
  exact List.Pairwise.sublist (List.take_sublist _ _)
    (List.sorted_insertionSort topRatedLE _)

theorem pairwise_avg_fallbackRows (db : DB) (uid : Int) (limit : Nat) :
    ((fallbackSelect db uid limit).map (fallbackRow uid)).Pairwise
      (fun a b => b.avg_rating ≤ a.avg_rating) := by
  rw [List.pairwise_map]
  refine (pairwise_topRated db _ limit).imp ?_
  intro a b h
  rcases h with h | ⟨h, _⟩
  · exact le_of_lt h
  · exact le_of_eq h.symm

theorem readRecsJoined_replace_zero (db : DB) (uid : Int) (limit : Nat)
    (hN : (db.movies.map (·.movie_id)).Nodup) (hzero : ratedBy db uid = []) :
    readRecsJoined (replaceForUser db uid (generateRecommendations db uid limit))
      uid = (fallbackSelect db uid limit).map (fallbackRow uid) := by
  rw [readRecsJoined, genRec_zero db uid limit hzero, filter_replaceForUser,
    List.map_map, List.filterMap_map]
  rw [filterMap_congr_some _ (fallbackRow uid) _ ?_]
  · apply List.Sorted.insertionSort_eq
    exact (pairwise_avg_fallbackRows db uid limit).imp (fun h => h)
  · intro m hm
    have hmm : m ∈ db.movies := topRated_subset db _ limit m hm
    show ((getMovie (replaceForUser db uid _) m.movie_id).map _) = _
    have : getMovie (replaceForUser db uid
        ((fallbackSelect db uid limit).map (fun m => (m, "Top rated fallback"))))
        m.movie_id = some m := getMovie_self db hN m hmm
    rw [this]
    rfl

theorem length_main_fill (n : Nat) (xs ys : List Movie) :
    (xs.take n).length + (ys.take (n - (xs.take n).length)).length ≤ n := by
  have h1 : (xs.take n).length ≤ n := List.length_take_le _ _
  have h2 : (ys.take (n - (xs.take n).length)).length ≤ n - (xs.take n).length :=
    List.length_take_le _ _
  omega

theorem fallbackSelect_length (db : DB) (uid : Int) (limit : Nat) :
    (fallbackSelect db uid limit).length ≤ limit := by
  rw [fallbackSelect, topRated]
  exact List.length_take_le _ _

theorem pythonFallbackRows_length (db : DB) (uid : Int) (limit : Nat) :
    (pythonFallbackRows db uid limit).length ≤ limit := by
  rw [pythonFallbackRows]
  simp only [List.length_map]
  exact List.length_take_le _ _

theorem pythonFallbackRows_pairwise (db : DB) (uid : Int) (limit : Nat) :
    (pythonFallbackRows db uid limit).Pairwise
      (fun a b => b.avg_rating ≤ a.avg_rating) := by
  rw [pythonFallbackRows, List.pairwise_map]
  have hs : (List.insertionSort avgDescLE (db.movies.filter
      (fun m => !((ratedMovieIds db uid).contains m.movie_id)))).Pairwise
        avgDescLE :=
    List.sorted_insertionSort avgDescLE _
  exact (List.Pairwise.sublist (List.take_sublist _ _) hs).imp (fun h => h)

theorem pythonFallbackRows_reason (db : DB) (uid : Int) (limit : Nat) :
    ∀ row ∈ pythonFallbackRows db uid limit, row.reason = "Top rated fallback" := by
  intro row hrow
  rw [pythonFallbackRows] at hrow
  obtain ⟨m, _, rfl⟩ := List.mem_map.mp hrow
  rfl

/-- C2: for a user with zero ratings, both the stored-procedure path
(modelled from the spec) and the Python fallback path return exactly a
fallback top-rated list: at most `limit` rows, ordered by `avg_rating`
descending, every row's reason "Top rated fallback". -/
theorem recommendations_zero_ratings_fallback (db : DB) (uid : Int)
    (limit : Nat) (procOk : Bool) (rows : List RecRow) (db2 : DB)
    (hzero : ratedBy db uid = [])
    (hN : (db.movies.map (·.movie_id)).Nodup)
    (h : recommendations db (some uid) (some limit) procOk = some (rows, db2)) :
    (procOk = true → rows = (fallbackSelect db uid limit).map (fallbackRow uid)) ∧
    (procOk = false → rows = pythonFallbackRows db uid limit) ∧
    rows.length ≤ limit ∧
    rows.Pairwise (fun a b => b.avg_rating ≤ a.avg_rating) ∧
    ∀ row ∈ rows, row.reason = "Top rated fallback" := by
  cases procOk
  · simp only [recommendations, if_neg (Bool.false_ne_true), Option.getD_some,
      Option.some.injEq, Prod.mk.injEq] at h
    obtain ⟨h1, _⟩ := h
    rw [← h1]
    exact ⟨fun hc => absurd hc (by simp), fun _ => rfl,
      pythonFallbackRows_length db uid limit,
      pythonFallbackRows_pairwise db uid limit,
      pythonFallbackRows_reason db uid limit⟩
  · simp only [recommendations, eq_self_iff_true, if_true, Option.getD_some,
      Option.some.injEq, Prod.mk.injEq] at h
    obtain ⟨h1, _⟩ := h
    rw [← h1, readRecsJoined_replace_zero db uid limit hN hzero]
    refine ⟨fun _ => rfl, fun hc => absurd hc (by simp), ?_, ?_, ?_⟩
    · simp only [List.length_map]
      exact fallbackSelect_length db uid limit
    · exact pairwise_avg_fallbackRows db uid limit
    · intro row hrow
      obtain ⟨m, _, rfl⟩ := List.mem_map.mp hrow
      rfl

/-! ### Concrete databases for witnesses and counterexamples -/

/-- Two genre-"G" movies, user 1 has rated movie 1. -/
def C1db : DB :=
  ⟨[⟨1, "A", some "G", none, 5, 1, none⟩, ⟨2, "B", some "G", none, 3, 0, none⟩],
   [⟨1, 1, 5⟩], []⟩

/-- Witness for C1 on the stored-procedure path: the only returned movie
is the unrated movie 2. -/
theorem recommendations_exclude_rated_witness :
    (recommendations C1db (some 1) (some 5) true =
      some ([⟨1, 2, "B", some "G", 3, none, "Because you liked G"⟩],
        { C1db with recommendations := [⟨1, 2, "Because you liked G"⟩] })) ∧
    ∀ row ∈ [(⟨1, 2, "B", some "G", 3, none, "Because you liked G"⟩ : RecRow)],
      (ratedMovieIds C1db 1).contains row.movie_id = false :=
  ⟨by decide,
   recommendations_exclude_rated C1db 1 (some 5) true
     [⟨1, 2, "B", some "G", 3, none, "Because you liked G"⟩]
     { C1db with recommendations := [⟨1, 2, "Because you liked G"⟩] }
     (by decide)⟩

/-- Two movies with EQUAL `avg_rating`, stored with the higher movie id
first; no ratings at all. -/
def C7db : DB :=
  ⟨[⟨2, "B", none, none, 3, 0, none⟩, ⟨1, "A", none, none, 3, 0, none⟩], [], []⟩

/-- The rows the stored-procedure path returns for the zero-ratings user 9
of `C7db`. -/
def C2rows : List RecRow :=
  [⟨9, 1, "A", none, 3, none, "Top rated fallback"⟩,
   ⟨9, 2, "B", none, 3, none, "Top rated fallback"⟩]

/-- The database state after that request stored its recommendations. -/
def C2db2 : DB :=
  { C7db with recommendations :=
      [⟨9, 1, "Top rated fallback"⟩, ⟨9, 2, "Top rated fallback"⟩] }

/-- Witness for C2: user 9 has no ratings in `C7db`. -/
theorem recommendations_zero_ratings_fallback_witness :
    (ratedBy C7db 9 = [] ∧ ((C7db.movies.map (·.movie_id)).Nodup) ∧
     recommendations C7db (some 9) (some 5) true = some (C2rows, C2db2)) ∧
    ((true = true → C2rows = (fallbackSelect C7db 9 5).map (fallbackRow 9)) ∧
     (true = false → C2rows = pythonFallbackRows C7db 9 5) ∧
     C2rows.length ≤ 5 ∧
     C2rows.Pairwise (fun a b => b.avg_rating ≤ a.avg_rating) ∧
     ∀ row ∈ C2rows, row.reason = "Top rated fallback") :=
  ⟨⟨by decide, by decide, by decide⟩,
   recommendations_zero_ratings_fallback C7db 9 5 true C2rows C2db2
     (by decide) (by decide) (by decide)⟩

/-! ### C7: determinism and tie-breaking of the fallback ordering -/

/-- Counterexample to C7's tie-break clause: in `C7db` both movies have
`avg_rating` 3, yet the Python fallback returns them as ids [2, 1] — the
store's row order, not movie id ascending.  The `ORDER BY avg_rating DESC`
at `app.py` line 235 has no tie-break. -/
theorem fallback_tiebreak_counterexample :
    (recommendations C7db (some 1) none false =
      some ([⟨1, 2, "B", none, 3, none, "Top rated fallback"⟩,
             ⟨1, 1, "A", none, 3, none, "Top rated fallback"⟩], C7db)) ∧
    (∀ m ∈ C7db.movies, m.avg_rating = 3) ∧
    ((pythonFallbackRows C7db 1 20).map (·.movie_id) = [2, 1]) ∧
    ¬ ((pythonFallbackRows C7db 1 20).map (·.movie_id)).Pairwise (· ≤ ·) :=
  ⟨by decide, by decide, by decide, by decide⟩

theorem replace_replace (db : DB) (uid : Int) (e1 e2 : List (Movie × String)) :
    replaceForUser (replaceForUser db uid e1) uid e2 =
      replaceForUser db uid e2 := by
  cases db with
  | mk ms rs recs =>
    simp only [replaceForUser, List.filter_append, List.filter_filter,
      DB.mk.injEq, true_and]
    have h1 : (recs.filter fun a => (!(a.user_id == uid)) && !(a.user_id == uid)) =
        recs.filter fun a => !(a.user_id == uid) := by
      simp [Bool.and_self]
    have h2 : ((e1.map fun p => (⟨uid, p.1.movie_id, p.2⟩ : RecEntry)).filter
        fun rc => !(rc.user_id == uid)) = [] := by
      rw [List.filter_map]
      have hc : ((fun rc : RecEntry => !(rc.user_id == uid)) ∘
          fun p : Movie × String => (⟨uid, p.1.movie_id, p.2⟩ : RecEntry)) =
          fun _ => false := by
        funext p
        simp [Function.comp]
      rw [hc, List.filter_false, List.map_nil]
    rw [h1, h2, List.append_nil]

/-- C7 as amended: reading `/recommendations` again right after a
successful stored-procedure read — underlying movie and rating data
unchanged — returns the identical ordered list and state, and the output
is ordered by `avg_rating` descending on both the procedure path and the
Python fallback path; but ties are NOT broken by movie id (they keep the
store's row order, as the counterexample shows). -/
theorem recommendations_repeat_deterministic (db : DB) (uid : Int)
    (limitArg : Option Nat) (rows : List RecRow) (db2 : DB)
    (h : recommendations db (some uid) limitArg true = some (rows, db2)) :
    recommendations db2 (some uid) limitArg true = some (rows, db2) ∧
    rows.Pairwise (fun a b => b.avg_rating ≤ a.avg_rating) ∧
    ∀ limit : Nat, (pythonFallbackRows db uid limit).Pairwise
      (fun a b => b.avg_rating ≤ a.avg_rating) := by
  simp only [recommendations, eq_self_iff_true, if_true, Option.some.injEq,
    Prod.mk.injEq] at h
  obtain ⟨h1, h2⟩ := h
  refine ⟨?_, ?_, fun limit => pythonFallbackRows_pairwise db uid limit⟩
  · simp only [recommendations, eq_self_iff_true, if_true, Option.some.injEq,
      Prod.mk.injEq]
    subst h2
    rw [replace_replace]
    exact ⟨h1, rfl⟩
  · rw [← h1, readRecsJoined]
    exact (List.sorted_insertionSort rowAvgDescLE _).imp (fun hab => hab)

/-- Witness for the amended C7 at a concrete state with an avg-rating
tie. -/
theorem recommendations_repeat_deterministic_witness :
    (recommendations C7db (some 9) (some 5) true = some (C2rows, C2db2)) ∧
    (recommendations C2db2 (some 9) (some 5) true = some (C2rows, C2db2) ∧
     C2rows.Pairwise (fun a b => b.avg_rating ≤ a.avg_rating) ∧
     ∀ limit : Nat, (pythonFallbackRows C7db 9 limit).Pairwise
       (fun a b => b.avg_rating ≤ a.avg_rating)) :=
  ⟨by decide,
   recommendations_repeat_deterministic C7db 9 (some 5) C2rows C2db2 (by decide)⟩

/-! ### C9: default limits at the two generation call sites -/

/-- Seventeen genre-"A" movies with distinct average ratings 1..17. -/
def C9db : DB :=
  ⟨[⟨1, "M", some "A", none, 1, 0, none⟩, ⟨2, "M", some "A", none, 2, 0, none⟩,
    ⟨3, "M", some "A", none, 3, 0, none⟩, ⟨4, "M", some "A", none, 4, 0, none⟩,
    ⟨5, "M", some "A", none, 5, 0, none⟩, ⟨6, "M", some "A", none, 6, 0, none⟩,
    ⟨7, "M", some "A", none, 7, 0, none⟩, ⟨8, "M", some "A", none, 8, 0, none⟩,
    ⟨9, "M", some "A", none, 9, 0, none⟩, ⟨10, "M", some "A", none, 10, 0, none⟩,
    ⟨11, "M", some "A", none, 11, 0, none⟩, ⟨12, "M", some "A", none, 12, 0, none⟩,
    ⟨13, "M", some "A", none, 13, 0, none⟩, ⟨14, "M", some "A", none, 14, 0, none⟩,
    ⟨15, "M", some "A", none, 15, 0, none⟩, ⟨16, "M", some "A", none, 16, 0, none⟩,
    ⟨17, "M", some "A", none, 17, 0, none⟩], [], []⟩

/-- Counterexample to C9: the generation triggered by a rating write —
which has no caller-supplied limit — runs with limit 15 (`app.py` line
195), not 20: after user 1 rates movie 17 in a 17-movie catalog, 15
recommendation rows are stored, while a limit-20 generation on the very
same state would produce 16.  (The aggregate side effect is flagged off
here; it does not feed the generation.) -/
theorem rate_autogen_limit_counterexample :
    rateAutoRecLimit = 15 ∧ ¬ rateAutoRecLimit = 20 ∧
    ((rate C9db (some 1) (.val 17) (.val 5) false true).2.recommendations.filter
      (fun rc => rc.user_id == 1)).length = 15 ∧
    (generateRecommendations (rate C9db (some 1) (.val 17) (.val 5) false true).2
      1 20).length = 16 :=
  ⟨rfl, by decide, by decide, by decide⟩

/-- C9 as amended: the `/recommendations` read defaults its limit to 20
when the caller supplies none, while the auto-regeneration inside `/rate`
always passes the constant limit 15. -/
theorem recommendations_default_limit (db : DB) (sessionUser : Option Int)
    (procOk : Bool) :
    recommendations db sessionUser none procOk =
      recommendations db sessionUser (some 20) procOk ∧
    rateAutoRecLimit = 15 := by
  constructor
  · cases sessionUser with
    | none => rfl
    | some uid => rfl
  · rfl

end MovieRec
